import Mathlib

/-!
Verification development for the vibe-check codebase scanner.

The definitions below are a shallow embedding of the TypeScript source:
`ContextManager` (file discovery, context building, condensation and summary
statistics), `Reporter.generateReport`, `CodeAnalyzer.analyzeCodebase` and the
cohesive-paragraph `InsightGenerator.generateInsights`, together with the
error classes from `errors.ts`.

Modelling conventions:
- JavaScript strings are modelled by Lean `String`; `content.length` becomes
  `String.length` (the UTF-16 versus codepoint distinction is irrelevant to
  every property proved here, which only compares lengths to each other and
  to the fixed cap).
- The filesystem seen by `scanDirectory` is modelled as an inductive tree of
  named entries; a file whose read fails (`fs.readFile` throwing) carries
  `none` as its content.  A root that does not exist or cannot be listed is
  modelled by passing `none` for the root listing, which mirrors
  `fs.readdir` throwing on the root.
- Async functions returning or throwing become `Except`-valued functions.
- The remote model call (`generateObject`) is an external collaborator; its
  outcome is passed in as an `Except` parameter: a transport failure, or a
  response object whose optional fields model a missing/ill-typed field.
- `Array.prototype.sort` with a consistent comparator produces the unique
  stable sorted permutation; it is modelled by `List.insertionSort`, which
  is stable and therefore produces that same permutation.
-/

namespace VibeCheck

/-- Severity enumeration from the `Vulnerability` interface in `types.ts`:
`'high' | 'medium' | 'low'`. -/
inductive Severity where
  | high
  | medium
  | low
deriving DecidableEq, BEq, Repr

/-- Vulnerability record from `types.ts`. -/
structure Vulnerability where
  severity : Severity
  file : String
  line : Nat
  description : String
  recommendation : String
deriving DecidableEq, Repr

/-- Summary block of a `VulnerabilityReport` from `types.ts`. -/
structure ReportSummary where
  total : Nat
  high : Nat
  medium : Nat
  low : Nat
deriving DecidableEq, Repr

/-- The `VulnerabilityReport` interface from `types.ts`. -/
structure VulnerabilityReport where
  vulnerabilities : List Vulnerability
  summary : ReportSummary
  insights : List String
deriving DecidableEq, Repr

/-- Embedding of `Reporter.generateReport` (reporter.ts): the summary counts
are computed by filtering the input vulnerability list itself; the function
receives no model-reported counts at all. -/
def generateReport (vulnerabilities : List Vulnerability) (insights : List String) :
    VulnerabilityReport :=
  let summary : ReportSummary :=
    { total := vulnerabilities.length
      high := (vulnerabilities.filter (fun v => v.severity == Severity.high)).length
      medium := (vulnerabilities.filter (fun v => v.severity == Severity.medium)).length
      low := (vulnerabilities.filter (fun v => v.severity == Severity.low)).length }
  { vulnerabilities := vulnerabilities
    summary := summary
    insights := insights }

/-- The static `SUPPORTED_EXTENSIONS` table of `ContextManager`
(context-manager.ts), in source order. -/
def SUPPORTED_EXTENSIONS : List (String × String) :=
  [(".js", "javascript"),
   (".ts", "typescript"),
   (".jsx", "javascript"),
   (".tsx", "typescript"),
   (".py", "python"),
   (".java", "java"),
   (".cpp", "cpp"),
   (".c", "c"),
   (".cs", "csharp"),
   (".php", "php"),
   (".rb", "ruby"),
   (".go", "go"),
   (".rs", "rust"),
   (".swift", "swift"),
   (".kt", "kotlin"),
   (".scala", "scala"),
   (".sh", "bash"),
   (".sql", "sql"),
   (".html", "html"),
   (".css", "css"),
   (".scss", "scss"),
   (".json", "json"),
   (".yaml", "yaml"),
   (".yml", "yaml"),
   (".xml", "xml"),
   (".md", "markdown")]

/-- The static `IGNORED_DIRS` list of `ContextManager`. -/
def IGNORED_DIRS : List String :=
  ["node_modules", ".git", ".vscode", ".idea",
   "dist", "build", "target", "__pycache__",
   ".next", ".nuxt", "coverage", ".nyc_output"]

/-- The fixed per-file size cap `MAX_FILE_SIZE = 100 * 1024` of
`ContextManager`. -/
def MAX_FILE_SIZE : Nat := 100 * 1024

/-- Node's `path.extname` restricted to a basename (directory-entry names
contain no separator): the suffix from the last dot, except that a dot in
first position (a dotfile) or a dotless name yields the empty string. -/
def extname (s : String) : String :=
  let cs := s.toList
  let pre := cs.reverse.takeWhile (fun c => c != '.')
  if pre.length == cs.length then ("")
  else if pre.length + 1 == cs.length then ("")
  else String.mk ('.' :: pre.reverse)

/-- JavaScript's `toLowerCase()` on the characters of a string (the table
keys are ASCII, where the two functions agree). -/
def lowercase (s : String) : String :=
  String.mk (s.data.map Char.toLower)

/-- Embedding of `ContextManager.isSupportedFile`: the lowercased extension
must be a key of `SUPPORTED_EXTENSIONS`.  The source applies `path.extname`
to `entry.name`, a basename. -/
def isSupportedFile (filename : String) : Bool :=
  (SUPPORTED_EXTENSIONS.lookup (lowercase (extname filename))).isSome

/-- Embedding of `ContextManager.getLanguage`.  The source applies
`path.extname` to the full path; `path.extname` operates on the basename of
its argument and directory-entry names contain no separator, so the model
takes the basename directly. -/
def getLanguage (filename : String) : String :=
  ((SUPPORTED_EXTENSIONS.lookup (lowercase (extname filename))).getD ("text"))

/-- The `FileContext` interface from context-manager.ts. -/
structure FileContext where
  path : String
  content : String
  language : String
  size : Nat
deriving DecidableEq, Repr

/-- Summary block of `CodebaseContext` from context-manager.ts. -/
structure Summary where
  totalFiles : Nat
  totalLines : Nat
  languages : List (String × Nat)
  largestFile : String
  averageFileSize : Nat
deriving DecidableEq, Repr

/-- The `CodebaseContext` interface from context-manager.ts. -/
structure CodebaseContext where
  files : List FileContext
  summary : Summary
deriving DecidableEq, Repr

/-- Line count of a file as computed by `generateSummary`:
`content.split('\n').length`. -/
def countLines (content : String) : Nat :=
  (content.splitOn ("\n")).length

/-- JavaScript's insertion-ordered `languages[lang] = (languages[lang] || 0) + 1`
update on a record modelled as an association list. -/
def bumpLang : List (String × Nat) → String → List (String × Nat)
  | [], lang => [(lang, 1)]
  | (k, v) :: rest, lang =>
      if k == lang then (k, v + 1) :: rest else (k, v) :: bumpLang rest lang

/-- Accumulator of the loop inside `ContextManager.generateSummary`. -/
structure SummaryAcc where
  languages : List (String × Nat)
  totalLines : Nat
  largestFile : String
  largestSize : Nat
deriving Repr

/-- One iteration of the `for (const file of files)` loop of
`generateSummary`. -/
def summaryStep (acc : SummaryAcc) (file : FileContext) : SummaryAcc :=
  { languages := bumpLang acc.languages file.language
    totalLines := acc.totalLines + countLines file.content
    largestFile := if file.size > acc.largestSize then file.path else acc.largestFile
    largestSize := if file.size > acc.largestSize then file.size else acc.largestSize }

/-- Embedding of `ContextManager.generateSummary`.  `Math.round(sum / n)` on
non-negative values equals `⌊(2 * sum + n) / (2 * n)⌋`, computed here in
exact arithmetic. -/
def generateSummary (files : List FileContext) : Summary :=
  let acc := files.foldl summaryStep ⟨[], 0, "", 0⟩
  { totalFiles := files.length
    totalLines := acc.totalLines
    languages := acc.languages
    largestFile := acc.largestFile
    averageFileSize :=
      if files.length > 0 then
        (2 * files.foldl (fun sum f => sum + f.size) 0 + files.length) / (2 * files.length)
      else 0 }

/-- The primary-language set `['typescript', 'javascript']` used by the
condenser's comparator. -/
def mainLanguages : List String := ["typescript", "javascript"]

/-- Predicate matching `['typescript', 'javascript'].includes(x.language)`. -/
def isMainLang (f : FileContext) : Bool := mainLanguages.contains f.language

/-- The comparator passed to `sort` in `ContextManager.getCondensedContext`:
primary-language files first, then larger `size` first. -/
def condCmp (a b : FileContext) : Int :=
  if isMainLang a && !isMainLang b then -1
  else if !isMainLang a && isMainLang b then 1
  else (b.size : Int) - (a.size : Int)

/-- The total preorder induced by `condCmp`: `a` may precede `b` exactly when
the comparator does not order `b` strictly before `a`. -/
def condRel (a b : FileContext) : Prop := condCmp a b ≤ 0

instance : DecidableRel condRel := fun a b => inferInstanceAs (Decidable (condCmp a b ≤ 0))

instance : IsTotal FileContext condRel where
  total a b := by
    unfold condRel condCmp
    cases ha : isMainLang a <;> cases hb : isMainLang b <;> simp [ha, hb] <;> omega

instance : IsTrans FileContext condRel where
  trans a b c := by
    unfold condRel condCmp
    cases ha : isMainLang a <;> cases hb : isMainLang b <;> cases hc : isMainLang c <;>
      simp [ha, hb, hc] <;> omega

/-- The order the condensed output must exhibit between a file `a` and any
later file `b`: a primary-tier file never follows a non-primary one, and
within one tier sizes never increase. -/
def condOrdered (a b : FileContext) : Prop :=
  (isMainLang b = true → isMainLang a = true) ∧
  (isMainLang a = isMainLang b → b.size ≤ a.size)

/-- The sort-and-slice step of `ContextManager.getCondensedContext`, applied
to an already-built context.  JavaScript's `sort` is stable and `condCmp` is
a consistent comparator, so its output is the unique stable sorted
permutation, which `List.insertionSort` also produces. -/
def getCondensedContext (ctx : CodebaseContext) (maxFiles : Nat) : CodebaseContext :=
  let sortedFiles := List.insertionSort condRel ctx.files
  let condensedFiles := sortedFiles.take maxFiles
  { files := condensedFiles
    summary := generateSummary condensedFiles }

mutual
/-- Model of one directory entry seen by `fs.readdir(..., { withFileTypes: true })`:
a regular file (whose content is `none` when `fs.readFile` would throw) or a
subdirectory. -/
inductive FSEntry where
  | file (name : String) (content : Option String)
  | dir (name : String) (entries : FSEntries)

/-- Model of a directory listing, in filesystem enumeration order. -/
inductive FSEntries where
  | nil
  | cons (e : FSEntry) (es : FSEntries)
end

/-- A path produced by the discovery pass: the chain of directory names below
the scan root, the basename, and the file's readable content (if any). -/
structure ScannedFile where
  dirs : List String
  name : String
  content : Option String
deriving DecidableEq, Repr

/-- The traversal guard of `ContextManager.scanDirectory`:
`!entry.name.startsWith('.') && !IGNORED_DIRS.includes(entry.name)`. -/
def allowedDir (name : String) : Bool :=
  !name.startsWith (".") && !IGNORED_DIRS.contains name

mutual
/-- Discovery decision of `ContextManager.scanDirectory` for one entry:
recurse into a directory unless its name starts with `.` or is in
`IGNORED_DIRS`; keep a file when `isSupportedFile` accepts its name. -/
def scanEntry (pre : List String) : FSEntry → List ScannedFile
  | .file name content =>
      if isSupportedFile name then [⟨pre, name, content⟩] else []
  | .dir name sub =>
      if allowedDir name then scanEntries (pre ++ [name]) sub
      else []

/-- Embedding of the `scan` loop of `ContextManager.scanDirectory` over a
directory listing: depth-first, subdirectory contents appended in place. -/
def scanEntries (pre : List String) : FSEntries → List ScannedFile
  | .nil => []
  | .cons e es => scanEntry pre e ++ scanEntries pre es
end

/-- Rendering of the path recorded in a `FileContext`
(`path.relative(rootDir, filePath)`): the segments below the root joined by
the separator. -/
def renderPath (dirs : List String) (name : String) : String :=
  String.intercalate ("/") (dirs ++ [name])

/-- Embedding of the read loop of `ContextManager.buildContext`: a file whose
read fails is skipped (warn and continue), a file whose content length
exceeds `MAX_FILE_SIZE` is skipped, every other file becomes a
`FileContext` with `size = content.length`. -/
def readPass : List ScannedFile → List FileContext
  | [] => []
  | f :: rest =>
      match f.content with
      | none => readPass rest
      | some content =>
          if content.length > MAX_FILE_SIZE then readPass rest
          else
            { path := renderPath f.dirs f.name
              content := content
              language := getLanguage f.name
              size := content.length } :: readPass rest

/-- The `ContextBuildError` class from errors.ts, one constructor per
construction site in `ContextManager.buildContext`. -/
inductive ContextBuildError where
  | rootRequired
  | scanFailed (dir : String)
  | noSupportedFiles (dir : String)
  | noReadableFiles
deriving DecidableEq, Repr

/-- Message text of each `ContextBuildError`, verbatim from
`ContextManager.buildContext`. -/
def ContextBuildError.message : ContextBuildError → String
  | .rootRequired => "Root directory path is required and must be a string"
  | .scanFailed d => "Failed to scan directory: " ++ d
  | .noSupportedFiles d => "No supported files found in directory: " ++ d
  | .noReadableFiles => "No readable files found or all files exceed maximum size limit"

/-- Optional `directory` field of `ContextBuildError`; only the
scan-failure site passes it. -/
def ContextBuildError.directory : ContextBuildError → Option String
  | .scanFailed d => some d
  | _ => none

/-- Embedding of `ContextManager.buildContext`.  `root = none` models a root
directory that does not exist or cannot be listed (`scanDirectory`
throwing); the empty `rootDir` string models the falsy-path guard. -/
def buildContext (rootDir : String) (root : Option FSEntries) :
    Except ContextBuildError CodebaseContext :=
  if rootDir.isEmpty then .error .rootRequired
  else
    match root with
    | none => .error (.scanFailed rootDir)
    | some es =>
        let files := scanEntries [] es
        if files.length = 0 then .error (.noSupportedFiles rootDir)
        else
          let fileContexts := readPass files
          if fileContexts.length = 0 then .error .noReadableFiles
          else .ok { files := fileContexts, summary := generateSummary fileContexts }

/-- Embedding of `ContextManager.getCondensedContext(rootDir, maxFiles)` as
invoked on a filesystem: build the full context, then sort and slice. -/
def condensedContext (rootDir : String) (root : Option FSEntries) (maxFiles : Nat) :
    Except ContextBuildError CodebaseContext :=
  (buildContext rootDir root).map (fun ctx => getCondensedContext ctx maxFiles)

/-- Transport-level failure of a `generateObject` call (the exception thrown
by the remote invocation). -/
structure TransportError where
  message : String
deriving DecidableEq, Repr

/-- The object of an analysis response; `vulnerabilities = none` models a
response whose `vulnerabilities` field is missing or not an array. -/
structure AnalysisObject where
  vulnerabilities : Option (List Vulnerability)
deriving DecidableEq, Repr

/-- A `generateObject` result for the analysis call; `object = none` models a
falsy `result.object`. -/
structure AnalysisResponse where
  object : Option AnalysisObject
deriving DecidableEq, Repr

/-- Cause attached to a wrapped analysis failure: the context-build error or
the transport error that `ErrorHandler.tryAsync` caught. -/
inductive AnalysisCause where
  | context (e : ContextBuildError)
  | transport (t : TransportError)
deriving DecidableEq, Repr

/-- Errors surfaced by `CodeAnalyzer.analyzeCodebase`: the `ValidationError`
precondition failures and `AIAnalysisError(message, cause?)`. -/
inductive AnalyzeError where
  | validation (message : String)
  | aiAnalysis (message : String) (cause : Option AnalysisCause)
deriving DecidableEq, Repr

/-- Embedding of `CodeAnalyzer.analyzeCodebase`.  The remote call is an
external collaborator, so its outcome is a parameter; `ErrorHandler.tryAsync`
becomes the wrapping of either failure into `AIAnalysisError` with the
original cause. -/
def analyzeCodebase (rootDir apiKey model : String) (root : Option FSEntries)
    (remote : Except TransportError AnalysisResponse) :
    Except AnalyzeError (List Vulnerability) :=
  if rootDir.isEmpty then
    .error (.validation ("Root directory path is required and must be a string"))
  else if apiKey.isEmpty then
    .error (.validation ("API key is required for AI analysis"))
  else if model.isEmpty then
    .error (.validation ("Model configuration is required for AI analysis"))
  else
    match condensedContext rootDir root 15 with
    | .error e =>
        .error (.aiAnalysis ("Failed to build codebase context for AI analysis")
          (some (.context e)))
    | .ok context =>
        if context.files.length = 0 then
          .error (.aiAnalysis ("No supported files found in the specified directory") none)
        else
          match remote with
          | .error t =>
              .error (.aiAnalysis ("AI analysis request failed") (some (.transport t)))
          | .ok result =>
              match result.object with
              | none => .error (.aiAnalysis ("Invalid response format from AI analysis") none)
              | some obj =>
                  match obj.vulnerabilities with
                  | none =>
                      .error (.aiAnalysis ("Invalid response format from AI analysis") none)
                  | some vs => .ok vs

/-- Risk levels of the insight schema. -/
inductive RiskLevel where
  | low
  | medium
  | high
deriving DecidableEq, Repr

/-- The `riskAssessment` object of the cohesive insight schema. -/
structure RiskAssessment where
  overallRisk : RiskLevel
  priorityAreas : List String
deriving DecidableEq, Repr

/-- The object of an insight response; `analysis = none` models a missing
`analysis` field and `riskAssessment = none` a missing risk assessment. -/
structure InsightObject where
  analysis : Option String
  riskAssessment : Option RiskAssessment
deriving DecidableEq, Repr

/-- A `generateObject` result for the insight call. -/
structure InsightResponse where
  object : Option InsightObject
deriving DecidableEq, Repr

/-- Errors surfaced by `InsightGenerator.generateInsights`: validation
failures and `InsightGenerationError(message, cause?)`. -/
inductive InsightError where
  | validation (message : String)
  | generation (message : String) (cause : Option TransportError)
deriving DecidableEq, Repr

/-- Embedding of the cohesive-paragraph `InsightGenerator.generateInsights`.
`vulnerabilities = none` models a non-array argument
(`!Array.isArray(vulnerabilities)`).  The falsy test
`!result.object.analysis` rejects both a missing and an empty `analysis`
string. -/
def generateInsights (vulnerabilities : Option (List Vulnerability))
    (apiKey model : String) (remote : Except TransportError InsightResponse) :
    Except InsightError (List String) :=
  match vulnerabilities with
  | none => .error (.validation ("Vulnerabilities must be provided as an array"))
  | some _ =>
      if apiKey.isEmpty then
        .error (.validation ("API key is required for insight generation"))
      else if model.isEmpty then
        .error (.validation ("Model configuration is required for insight generation"))
      else
        match remote with
        | .error t => .error (.generation ("Failed to generate AI insights") (some t))
        | .ok result =>
            match result.object with
            | none =>
                .error (.generation ("Invalid response format from AI insight generation") none)
            | some obj =>
                match obj.analysis with
                | none => .error (.generation ("AI response missing analysis paragraph") none)
                | some a =>
                    if a.isEmpty then
                      .error (.generation ("AI response missing analysis paragraph") none)
                    else
                      match obj.riskAssessment with
                      | none =>
                          .error (.generation ("AI response missing risk assessment") none)
                      | some _ => .ok [a]

mutual
/-- Specification-side enumeration of every regular file in one entry,
paired with the chain of directory names above it (no filtering at all);
used to characterize what discovery keeps and drops. -/
def allFilesEntry : FSEntry → List ScannedFile
  | .file n c => [⟨[], n, c⟩]
  | .dir n sub => (allFilesEntries sub).map (fun f => ⟨n :: f.dirs, f.name, f.content⟩)

/-- Specification-side enumeration of every regular file under a listing. -/
def allFilesEntries : FSEntries → List ScannedFile
  | .nil => []
  | .cons e es => allFilesEntry e ++ allFilesEntries es
end

/-- Predicate singling out the files discovery must keep: no directory on the
way down is ignored or hidden, and the extension is supported. -/
def keptFile (f : ScannedFile) : Bool :=
  f.dirs.all allowedDir && isSupportedFile f.name

/-- A TypeScript file of the condensation scenario, with `size` equal to its
content length as the builder guarantees. -/
def tsSample (i : Nat) : FileContext :=
  { path := "t" ++ toString i ++ ".ts"
    content := String.mk (List.replicate i 'a')
    language := "typescript"
    size := i }

/-- A Python file of the condensation scenario; its sizes `100 + i` dominate
every TypeScript size, so the primary tier must win on language alone. -/
def pySample (i : Nat) : FileContext :=
  { path := "p" ++ toString i ++ ".py"
    content := String.mk (List.replicate (100 + i) 'b')
    language := "python"
    size := 100 + i }

/-- Condensation scenario input: ten `.ts` and ten `.py` files, interleaved. -/
def scenarioFilesC : List FileContext :=
  ((List.range 10).map (fun i => [pySample (i + 1), tsSample (i + 1)])).flatten

/-- Condensation scenario as a built context. -/
def scenarioCtxC : CodebaseContext :=
  { files := scenarioFilesC, summary := generateSummary scenarioFilesC }

/-- Expected condensation output: all ten `.ts` files by decreasing size,
then the five largest `.py` files by decreasing size. -/
def expectedCondensedC : List FileContext :=
  (List.range 10).map (fun i => tsSample (10 - i)) ++
    (List.range 5).map (fun i => pySample (10 - i))

/-- Size-cap scenario directory: one `.js` file and one `.py` file. -/
def scenarioB (cjs cpy : String) : FSEntries :=
  .cons (.file ("app.js") (some cjs)) (.cons (.file ("util.py") (some cpy)) .nil)

/-- One-file directory used to instantiate hypotheses at a concrete input. -/
def sampleFS : FSEntries :=
  .cons (.file ("a.ts") (some ("x"))) .nil

/-- Directory whose single supported file is unreadable. -/
def unreadableFS : FSEntries :=
  .cons (.file ("a.ts") none) .nil

/-- The single file accepted in the size-cap scenario. -/
def scenarioBFile (cpy : String) : FileContext where
  path := renderPath [] ("util.py")
  content := cpy
  language := getLanguage ("util.py")
  size := cpy.length

/-- The context built in the size-cap scenario. -/
def scenarioBCtx (cpy : String) : CodebaseContext where
  files := [scenarioBFile cpy]
  summary := generateSummary [scenarioBFile cpy]

/-- A 200 KiB content, exceeding the cap. -/
def bigContent : String := String.mk (List.replicate (200 * 1024) 'a')

/-- A 2 KiB content, under the cap. -/
def smallContent : String := String.mk (List.replicate (2 * 1024) 'b')

/-- Risk assessment used in the concrete insight response. -/
def cleanRisk : RiskAssessment where
  overallRisk := .low
  priorityAreas := []

/-- Object of the concrete well-formed insight response. -/
def cleanInsightObject : InsightObject where
  analysis := some ("All clear.")
  riskAssessment := some cleanRisk

/-- A concrete well-formed insight response. -/
def cleanInsightResponse : InsightResponse where
  object := some cleanInsightObject

/-- The file context the builder produces from `sampleFS`. -/
def sampleFile : FileContext :=
  { path := "a.ts", content := "x", language := "typescript", size := 1 }

/-- The context built from `sampleFS`: one one-byte TypeScript file. -/
def sampleBuiltCtx : CodebaseContext :=
  { files := [sampleFile], summary := generateSummary [sampleFile] }

section Theorems

/-- Helper: a vulnerability list is exhaustively partitioned by the three
severity filters. -/
theorem length_eq_severity_counts (l : List Vulnerability) :
    l.length = (l.filter (fun v => v.severity == Severity.high)).length
      + (l.filter (fun v => v.severity == Severity.medium)).length
      + (l.filter (fun v => v.severity == Severity.low)).length := by
  induction l with
  | nil => rfl
  | cons v rest ih =>
      cases h : v.severity <;> simp +decide [List.filter_cons, h, ih] <;> omega

/-- C2: `Reporter.generateReport` derives `summary.total` as the length of
the input vulnerability sequence, each severity count by counting severities
in that sequence itself (the function receives no model-reported count), and
the counts partition the total. -/
theorem generateReport_summary_partition
    (vulnerabilities : List Vulnerability) (insights : List String) :
    (generateReport vulnerabilities insights).summary.total = vulnerabilities.length ∧
    (generateReport vulnerabilities insights).summary.total =
      (generateReport vulnerabilities insights).summary.high +
        (generateReport vulnerabilities insights).summary.medium +
        (generateReport vulnerabilities insights).summary.low ∧
    (generateReport vulnerabilities insights).summary.high =
      (vulnerabilities.filter (fun v => v.severity == Severity.high)).length ∧
    (generateReport vulnerabilities insights).summary.medium =
      (vulnerabilities.filter (fun v => v.severity == Severity.medium)).length ∧
    (generateReport vulnerabilities insights).summary.low =
      (vulnerabilities.filter (fun v => v.severity == Severity.low)).length := by
  refine ⟨rfl, ?_, rfl, rfl, rfl⟩
  exact length_eq_severity_counts vulnerabilities

/-- Helper: the summary loop accumulates the sum of per-file line counts. -/
theorem totalLines_foldl (l : List FileContext) (acc : SummaryAcc) :
    (l.foldl summaryStep acc).totalLines =
      acc.totalLines + (l.map (fun f => countLines f.content)).sum := by
  induction l generalizing acc with
  | nil => simp
  | cons f rest ih =>
      simp only [List.foldl_cons, List.map_cons, List.sum_cons, ih, summaryStep]
      omega

/-- Helper: one language-histogram update adds exactly one to the sum of its
values. -/
theorem sum_bumpLang (m : List (String × Nat)) (lang : String) :
    ((bumpLang m lang).map Prod.snd).sum = (m.map Prod.snd).sum + 1 := by
  induction m with
  | nil => simp [bumpLang]
  | cons p rest ih =>
      obtain ⟨k, v⟩ := p
      by_cases h : (k == lang) = true <;> simp [bumpLang, h, ih] <;> omega

/-- Helper: the summary loop adds one language-histogram unit per file. -/
theorem languages_foldl (l : List FileContext) (acc : SummaryAcc) :
    (((l.foldl summaryStep acc).languages).map Prod.snd).sum =
      ((acc.languages).map Prod.snd).sum + l.length := by
  induction l generalizing acc with
  | nil => simp
  | cons f rest ih =>
      simp only [List.foldl_cons, List.length_cons, ih, summaryStep, sum_bumpLang]
      omega

/-- C7: for every accepted file set, `ContextManager.generateSummary`
satisfies `totalFiles = count(files)`, `totalLines = sum of per-file line
counts`, and the language-histogram values sum to `totalFiles`. -/
theorem generateSummary_invariants (files : List FileContext) :
    (generateSummary files).totalFiles = files.length ∧
    (generateSummary files).totalLines =
      (files.map (fun f => countLines f.content)).sum ∧
    (((generateSummary files).languages).map Prod.snd).sum =
      (generateSummary files).totalFiles := by
  refine ⟨rfl, ?_, ?_⟩
  · show (files.foldl summaryStep ⟨[], 0, "", 0⟩).totalLines = _
    rw [totalLines_foldl]
    simp
  · show (((files.foldl summaryStep ⟨[], 0, "", 0⟩).languages).map Prod.snd).sum = _
    rw [languages_foldl]
    simp [generateSummary]

mutual
/-- Helper: discovery on one entry returns exactly the files below it that
pass `keptFile`, in traversal order, shifted under the current prefix. -/
theorem scanEntry_eq_filter (pre : List String) (e : FSEntry) :
    scanEntry pre e = ((allFilesEntry e).filter keptFile).map
      (fun f => ⟨pre ++ f.dirs, f.name, f.content⟩) := by
  cases e with
  | file n c =>
      by_cases h : isSupportedFile n
      · simp [scanEntry, allFilesEntry, List.filter_cons, keptFile, h]
      · simp [scanEntry, allFilesEntry, List.filter_cons, keptFile, h]
  | dir n sub =>
      simp only [scanEntry, allFilesEntry]
      rw [List.filter_map]
      by_cases h : allowedDir n
      · simp only [h, if_true]
        rw [scanEntries_eq_filter (pre ++ [n]) sub, List.map_map]
        have hp : (keptFile ∘ fun f : ScannedFile => (⟨n :: f.dirs, f.name, f.content⟩ : ScannedFile))
            = keptFile := by
          funext f
          simp [keptFile, Function.comp, h]
        rw [hp]
        congr 1
        funext f
        simp [Function.comp]
      · have hp : ∀ f ∈ allFilesEntries sub,
            ¬ ((keptFile ∘ fun f : ScannedFile =>
                (⟨n :: f.dirs, f.name, f.content⟩ : ScannedFile)) f = true) := by
          intro f _
          simp [keptFile, Function.comp, h]
        rw [List.filter_eq_nil_iff.mpr hp]
        simp [h]

/-- Helper: discovery on a directory listing returns exactly the files below
it that pass `keptFile`, in traversal order, shifted under the prefix. -/
theorem scanEntries_eq_filter (pre : List String) (es : FSEntries) :
    scanEntries pre es = ((allFilesEntries es).filter keptFile).map
      (fun f => ⟨pre ++ f.dirs, f.name, f.content⟩) := by
  cases es with
  | nil => simp [scanEntries, allFilesEntries]
  | cons e es =>
      simp only [scanEntries, allFilesEntries, List.filter_append, List.map_append]
      rw [scanEntry_eq_filter pre e, scanEntries_eq_filter pre es]
end

/-- C9: for every directory tree, discovery (`ContextManager.scanDirectory`)
returns exactly the regular files whose extension is in the allow-list and
none of whose enclosing directories is in `IGNORED_DIRS` or starts with a
dot: the output is the `keptFile`-filter of all files in the tree, so it
excludes every path under a disallowed directory and includes every
supported file elsewhere. -/
theorem scanDirectory_keeps_exactly_supported (es : FSEntries) :
    scanEntries [] es = (allFilesEntries es).filter keptFile ∧
    (∀ f : ScannedFile, f ∈ scanEntries [] es ↔
        f ∈ allFilesEntries es ∧ (f.dirs.all allowedDir ∧ isSupportedFile f.name)) := by
  have h := scanEntries_eq_filter [] es
  have hid : (fun f : ScannedFile => (⟨[] ++ f.dirs, f.name, f.content⟩ : ScannedFile))
      = id := by
    funext f
    cases f
    simp
  rw [hid, List.map_id] at h
  refine ⟨h, fun f => ?_⟩
  rw [h, List.mem_filter]
  simp [keptFile, Bool.and_eq_true, and_assoc]

/-- Helper: the condenser's comparator relation implies the claimed tier and
size ordering. -/
theorem condOrdered_of_condRel {a b : FileContext} (h : condRel a b) : condOrdered a b := by
  unfold condRel condCmp at h
  unfold condOrdered
  cases ha : isMainLang a <;> cases hb : isMainLang b <;> simp [ha, hb] at h ⊢ <;> omega

/-- Helper: the condensed file list has `min N available` elements. -/
theorem condensed_length (ctx : CodebaseContext) (N : Nat) :
    (getCondensedContext ctx N).files.length = min N ctx.files.length := by
  simp [getCondensedContext, List.length_take,
    (List.perm_insertionSort condRel ctx.files).length_eq]

/-- Helper: the condensed file list is pairwise in order. -/
theorem condensed_pairwise (ctx : CodebaseContext) (N : Nat) :
    (getCondensedContext ctx N).files.Pairwise condOrdered := by
  have hs : List.Sorted condRel (List.insertionSort condRel ctx.files) :=
    List.sorted_insertionSort condRel ctx.files
  have ht : (getCondensedContext ctx N).files.Sublist
      (List.insertionSort condRel ctx.files) := List.take_sublist _ _
  exact (List.Pairwise.sublist ht hs).imp (fun h => condOrdered_of_condRel h)

/-- Helper: condensing an already-condensed context changes nothing. -/
theorem condensed_idem (ctx : CodebaseContext) (N : Nat) :
    getCondensedContext (getCondensedContext ctx N) N = getCondensedContext ctx N := by
  simp only [getCondensedContext]
  have hs : List.Sorted condRel ((List.insertionSort condRel ctx.files).take N) :=
    List.Pairwise.sublist (List.take_sublist _ _)
      (List.sorted_insertionSort condRel ctx.files)
  rw [hs.insertionSort_eq, List.take_take]
  simp

/-- Helper: every file built into a context by the read pass records its own
content length as its size, and takes its language from `getLanguage` on a
discovered file whose read succeeded. -/
theorem mem_readPass {l : List ScannedFile} {f : FileContext} (h : f ∈ readPass l) :
    ∃ sf ∈ l, sf.content = some f.content ∧ f.language = getLanguage sf.name ∧
      f.size = f.content.length := by
  induction l with
  | nil => simp [readPass] at h
  | cons sf rest ih =>
      cases hc : sf.content with
      | none =>
          rw [readPass] at h
          simp only [hc] at h
          obtain ⟨x, hx, hrest⟩ := ih h
          exact ⟨x, List.mem_cons_of_mem _ hx, hrest⟩
      | some c =>
          rw [readPass] at h
          simp only [hc] at h
          by_cases hlen : c.length > MAX_FILE_SIZE
          · rw [if_pos hlen] at h
            obtain ⟨x, hx, hrest⟩ := ih h
            exact ⟨x, List.mem_cons_of_mem _ hx, hrest⟩
          · rw [if_neg hlen] at h
            rcases List.mem_cons.mp h with hf | hf
            · subst hf
              exact ⟨sf, List.mem_cons_self _ _, hc, rfl, rfl⟩
            · obtain ⟨x, hx, hrest⟩ := ih hf
              exact ⟨x, List.mem_cons_of_mem _ hx, hrest⟩

/-- Helper: a successful `lookup` key-value pair is a member of the
association list. -/
theorem lookup_mem {l : List (String × String)} {k v : String}
    (h : l.lookup k = some v) : (k, v) ∈ l := by
  induction l with
  | nil => simp [List.lookup] at h
  | cons p rest ih =>
      obtain ⟨a, b⟩ := p
      rw [List.lookup] at h
      by_cases hk : (k == a) = true
      · simp only [hk] at h
        obtain rfl : b = v := Option.some.inj h
        obtain rfl : k = a := eq_of_beq hk
        exact List.mem_cons_self _ _
      · simp only [Bool.not_eq_true] at hk
        simp only [hk] at h
        exact List.mem_cons_of_mem _ (ih h)

/-- C1: the condenser returns exactly `min(N, available)` files, ordered with
the primary tier (`typescript`/`javascript`) first and, within a tier,
larger sizes first; sizes of built contexts are content lengths; the
analysis path condenses with `N = 15`; and on the 10-`.ts`/10-`.py` scenario
with `N = 15` the output is all ten `.ts` files followed by the five largest
`.py` files. -/
theorem getCondensedContext_min_count_and_order :
    (∀ (ctx : CodebaseContext) (N : Nat),
        (getCondensedContext ctx N).files.length = min N ctx.files.length) ∧
    (∀ (ctx : CodebaseContext) (N : Nat),
        (getCondensedContext ctx N).files.Pairwise condOrdered) ∧
    (∀ (rootDir : String) (root : Option FSEntries),
        condensedContext rootDir root 15 =
          (buildContext rootDir root).map (fun ctx => getCondensedContext ctx 15)) ∧
    (∀ (rootDir : String) (root : Option FSEntries) (ctx : CodebaseContext),
        buildContext rootDir root = .ok ctx →
        ∀ f ∈ ctx.files, f.size = f.content.length) ∧
    (getCondensedContext scenarioCtxC 15).files = expectedCondensedC := by
  refine ⟨condensed_length, condensed_pairwise, fun _ _ => rfl, ?_, by decide⟩
  intro rootDir root ctx hok f hf
  unfold buildContext at hok
  by_cases hroot : rootDir.isEmpty
  · rw [if_pos hroot] at hok
    exact absurd hok (by simp)
  · rw [if_neg hroot] at hok
    cases root with
    | none => exact absurd hok (by simp)
    | some es =>
        simp only at hok
        by_cases h1 : (scanEntries [] es).length = 0
        · rw [if_pos h1] at hok
          exact absurd hok (by simp)
        · rw [if_neg h1] at hok
          by_cases h2 : (readPass (scanEntries [] es)).length = 0
          · rw [if_pos h2] at hok
            exact absurd hok (by simp)
          · rw [if_neg h2] at hok
            obtain rfl : ctx = _ := (Except.ok.inj hok).symm
            obtain ⟨sf, _, _, _, hsize⟩ := mem_readPass hf
            exact hsize

/-- C6: the condenser is a pure function, so equal inputs give equal outputs;
it is idempotent (condensing a condensed context again changes neither
membership nor order, and in fact nothing at all); and in every output every
primary-language file precedes every non-primary file regardless of sizes. -/
theorem getCondensedContext_idempotent_primary_first :
    (∀ (ctx ctx' : CodebaseContext) (N : Nat), ctx = ctx' →
        getCondensedContext ctx N = getCondensedContext ctx' N) ∧
    (∀ (ctx : CodebaseContext) (N : Nat),
        getCondensedContext (getCondensedContext ctx N) N = getCondensedContext ctx N) ∧
    (∀ (ctx : CodebaseContext) (N : Nat),
        (getCondensedContext ctx N).files.Pairwise
          (fun a b => isMainLang b = true → isMainLang a = true)) := by
  refine ⟨fun ctx ctx' N h => by rw [h], condensed_idem, fun ctx N => ?_⟩
  exact (condensed_pairwise ctx N).imp (fun h => h.1)

/-- Witness for C6 at a concrete context, its equality hypothesis discharged
by reflexivity. -/
theorem getCondensedContext_idempotent_witness :
    getCondensedContext scenarioCtxC 3 = getCondensedContext scenarioCtxC 3 ∧
    getCondensedContext (getCondensedContext scenarioCtxC 3) 3 =
      getCondensedContext scenarioCtxC 3 :=
  ⟨getCondensedContext_idempotent_primary_first.1 scenarioCtxC scenarioCtxC 3 rfl,
    getCondensedContext_idempotent_primary_first.2.1 scenarioCtxC 3⟩

/-- Helper: two string literals with distinct prefixes stay distinct after
appending arbitrary suffixes. -/
theorem append_ne_of_take_ne (s t : String) (n : Nat)
    (hs : n ≤ s.data.length) (ht : n ≤ t.data.length)
    (hne : s.data.take n ≠ t.data.take n) :
    ∀ d d' : String, s ++ d ≠ t ++ d' := by
  intro d d' h
  apply hne
  have h2 := congrArg String.data h
  rw [String.data_append, String.data_append] at h2
  have h3 := congrArg (List.take n) h2
  rwa [List.take_append_of_le_length hs, List.take_append_of_le_length ht] at h3

/-- Helper: a non-empty string is not `isEmpty`. -/
theorem isEmpty_false_of_ne {s : String} (h : s ≠ "") : s.isEmpty = false := by
  rw [Bool.eq_false_iff]
  intro hb
  exact h ((String.isEmpty_iff _).mp hb)

/-- C3: context building distinguishes its three failure conditions.  A root
that does not exist or cannot be listed fails with a scan error carrying the
offending directory; a discovered-files count of zero fails citing no
supported files; a non-empty discovery whose read pass keeps nothing fails
with the distinct unreadable-or-oversized message; the three messages are
pairwise distinct for all directories; and a successful build never returns
an empty file list. -/
theorem buildContext_error_conditions :
    (∀ rootDir : String, rootDir ≠ "" →
        buildContext rootDir none = .error (.scanFailed rootDir) ∧
        (ContextBuildError.scanFailed rootDir).directory = some rootDir) ∧
    (∀ (rootDir : String) (es : FSEntries), rootDir ≠ "" →
        scanEntries [] es = [] →
        buildContext rootDir (some es) = .error (.noSupportedFiles rootDir)) ∧
    (∀ (rootDir : String) (es : FSEntries), rootDir ≠ "" →
        scanEntries [] es ≠ [] → readPass (scanEntries [] es) = [] →
        buildContext rootDir (some es) = .error .noReadableFiles) ∧
    (∀ d d' : String,
        (ContextBuildError.scanFailed d).message ≠
          (ContextBuildError.noSupportedFiles d').message ∧
        (ContextBuildError.scanFailed d).message ≠
          ContextBuildError.noReadableFiles.message ∧
        (ContextBuildError.noSupportedFiles d).message ≠
          ContextBuildError.noReadableFiles.message) ∧
    (∀ (rootDir : String) (root : Option FSEntries) (ctx : CodebaseContext),
        buildContext rootDir root = .ok ctx → ctx.files ≠ []) := by
  refine ⟨?_, ?_, ?_, ?_, ?_⟩
  · intro rootDir h
    have he : rootDir.isEmpty = false := isEmpty_false_of_ne h
    exact ⟨by simp [buildContext, he], rfl⟩
  · intro rootDir es h hscan
    have he : rootDir.isEmpty = false := isEmpty_false_of_ne h
    simp [buildContext, he, hscan]
  · intro rootDir es h hscan hread
    have he : rootDir.isEmpty = false := isEmpty_false_of_ne h
    have hlen : (scanEntries [] es).length ≠ 0 := by
      simpa [List.length_eq_zero] using hscan
    simp [buildContext, he, hlen, hread]
  · intro d d'
    refine ⟨?_, ?_, ?_⟩
    · exact append_ne_of_take_ne _ _ 1 (by decide) (by decide) (by decide) d d'
    · have h := append_ne_of_take_ne
        ("Failed to scan directory: ")
        ("No readable files found or all files exceed maximum size limit") 1
        (by decide) (by decide) (by decide) d ("")
      simpa using h
    · have h := append_ne_of_take_ne
        ("No supported files found in directory: ")
        ("No readable files found or all files exceed maximum size limit") 4
        (by decide) (by decide) (by decide) d ("")
      simpa using h
  · intro rootDir root ctx hok
    unfold buildContext at hok
    by_cases he : rootDir.isEmpty
    · rw [if_pos he] at hok
      exact absurd hok (by simp)
    · rw [if_neg he] at hok
      cases root with
      | none => exact absurd hok (by simp)
      | some es =>
          simp only at hok
          by_cases h1 : (scanEntries [] es).length = 0
          · rw [if_pos h1] at hok
            exact absurd hok (by simp)
          · rw [if_neg h1] at hok
            by_cases h2 : (readPass (scanEntries [] es)).length = 0
            · rw [if_pos h2] at hok
              exact absurd hok (by simp)
            · rw [if_neg h2] at hok
              obtain rfl : ctx = _ := (Except.ok.inj hok).symm
              intro hnil
              simp only at hnil
              exact h2 (by rw [hnil]; rfl)

/-- Witness for C3: the three failure conditions observed on concrete
directories: a missing root, an empty directory, and a directory whose only
supported file is unreadable. -/
theorem buildContext_error_conditions_witness :
    buildContext ("root") none = .error (.scanFailed ("root")) ∧
    buildContext ("root") (some .nil) = .error (.noSupportedFiles ("root")) ∧
    buildContext ("root") (some unreadableFS) = .error .noReadableFiles ∧
    (ContextBuildError.scanFailed ("root")).message ≠
      (ContextBuildError.noSupportedFiles ("root")).message := by
  refine ⟨(buildContext_error_conditions.1 ("root") (by decide)).1,
    buildContext_error_conditions.2.1 ("root") .nil (by decide) (by simp [scanEntries]),
    buildContext_error_conditions.2.2.1 ("root") unreadableFS (by decide)
      (by simp only [scanEntries, scanEntry, unreadableFS]; decide)
      (by simp only [scanEntries, scanEntry, unreadableFS]; decide),
    (buildContext_error_conditions.2.2.2.1 ("root") ("root")).1⟩

/-- C5: the read pass skips an unreadable file and a file whose content
length exceeds the 100 KiB cap without error, continuing the scan in both
cases; consequently a directory with a 200 KiB `.js` file and a 2 KiB `.py`
file builds to a context containing only the `.py` file, with
`summary.totalFiles = 1`. -/
theorem buildContext_skips_oversized_and_unreadable :
    (∀ (dirs : List String) (name : String) (rest : List ScannedFile),
        readPass ({ dirs := dirs, name := name, content := none } :: rest) = readPass rest) ∧
    (∀ (dirs : List String) (name c : String) (rest : List ScannedFile),
        c.length > MAX_FILE_SIZE →
        readPass ({ dirs := dirs, name := name, content := some c } :: rest) =
          readPass rest) ∧
    (∀ cjs cpy : String, cjs.length = 200 * 1024 → cpy.length = 2 * 1024 →
        ∃ ctx, buildContext ("root") (some (scenarioB cjs cpy)) = .ok ctx ∧
          ctx.files.map (fun f => f.path) = [renderPath [] ("util.py")] ∧
          ctx.summary.totalFiles = 1) := by
  refine ⟨fun dirs name rest => rfl, ?_, ?_⟩
  · intro dirs name c rest hc
    rw [readPass]
    simp only
    rw [if_pos hc]
  · intro cjs cpy hjs hpy
    have hscan : scanEntries [] (scenarioB cjs cpy) =
        [{ dirs := [], name := "app.js", content := some cjs },
         { dirs := [], name := "util.py", content := some cpy }] := by
      have h1 : isSupportedFile ("app.js") = true := by decide
      have h2 : isSupportedFile ("util.py") = true := by decide
      simp [scenarioB, scanEntries, scanEntry, h1, h2]
    have hread : readPass
        [{ dirs := [], name := "app.js", content := some cjs },
         { dirs := [], name := "util.py", content := some cpy }] =
        [scenarioBFile cpy] := by
      rw [readPass]
      simp only
      rw [if_pos (by rw [hjs]; decide)]
      rw [readPass]
      simp only
      rw [if_neg (by rw [hpy]; decide)]
      rw [readPass]
      simp [scenarioBFile]
    have hroot : ("root" : String).isEmpty = false := by decide
    refine ⟨scenarioBCtx cpy, ?_, by simp [scenarioBCtx, scenarioBFile], rfl⟩
    simp only [buildContext, hroot, Bool.false_eq_true, if_false, hscan, hread]
    simp [scenarioBCtx]

/-- Witness for C5: the scenario instantiated with concrete 200 KiB and 2 KiB
contents, plus concrete skip instances of both kinds. -/
theorem buildContext_skip_witness :
    readPass ({ dirs := [], name := "u.ts", content := none } ::
        [{ dirs := [], name := "v.ts", content := some ("x") }]) =
      readPass [{ dirs := [], name := "v.ts", content := some ("x") }] ∧
    readPass [{ dirs := [], name := "w.js", content := some bigContent }] = readPass [] ∧
    (∃ ctx, buildContext ("root") (some (scenarioB bigContent smallContent)) = .ok ctx ∧
      ctx.files.map (fun f => f.path) = [renderPath [] ("util.py")] ∧
      ctx.summary.totalFiles = 1) := by
  have hjs : bigContent.length = 200 * 1024 := by
    rw [bigContent, String.length_mk, List.length_replicate]
  have hpy : smallContent.length = 2 * 1024 := by
    rw [smallContent, String.length_mk, List.length_replicate]
  exact ⟨buildContext_skips_oversized_and_unreadable.1 [] ("u.ts") _,
    buildContext_skips_oversized_and_unreadable.2.1 [] ("w.js") _ [] (by rw [hjs]; decide),
    buildContext_skips_oversized_and_unreadable.2.2 _ _ hjs hpy⟩

/-- Helper: a non-empty string does not satisfy the falsy-path guard. -/
theorem not_isEmpty {s : String} (h : s ≠ "") : ¬ s.isEmpty = true := by
  rw [isEmpty_false_of_ne h]
  simp

/-- Helper: discovery on the one-file sample directory. -/
theorem sample_scan_eq :
    scanEntries [] sampleFS = [{ dirs := [], name := "a.ts", content := some ("x") }] := by
  simp only [sampleFS, scanEntries, scanEntry]
  decide

/-- Helper: the read pass on the sample discovery result. -/
theorem sample_read_eq :
    readPass [{ dirs := [], name := "a.ts", content := some ("x") }] = [sampleFile] := by
  decide

/-- Helper: the sample directory builds to `sampleBuiltCtx`. -/
theorem sample_build_eq : buildContext ("r") (some sampleFS) = .ok sampleBuiltCtx := by
  simp only [buildContext, sample_scan_eq, sample_read_eq]
  rw [if_neg (by decide), if_neg (by decide), if_neg (by decide)]
  rfl

/-- Helper: condensing the sample directory with `N = 15` returns the built
context unchanged. -/
theorem sample_condensed_eq :
    condensedContext ("r") (some sampleFS) 15 = .ok sampleBuiltCtx := by
  have hfiles : List.take 15 (List.insertionSort condRel sampleBuiltCtx.files) =
      [sampleFile] := by decide
  simp only [condensedContext, sample_build_eq, Except.map, getCondensedContext, hfiles]
  rfl

/-- Witness for C1: for the concrete sample build, the file's recorded size
is its content length (all other conjuncts of C1 are hypothesis-free). -/
theorem getCondensedContext_min_count_witness :
    sampleFile.size = sampleFile.content.length :=
  getCondensedContext_min_count_and_order.2.2.2.1 ("r") (some sampleFS) sampleBuiltCtx
    sample_build_eq sampleFile (by simp [sampleBuiltCtx])

/-- C4: once the analysis pipeline reaches the remote call, a transport
failure is wrapped into an `AIAnalysisError` carrying the original cause; a
response with no object or no vulnerabilities array fails with the
invalid-format `AIAnalysisError` rather than returning a default; and a
schema-conformant response with an empty vulnerabilities array succeeds with
the empty sequence. -/
theorem analyzeCodebase_response_validation :
    (∀ (rd k m : String) (root : Option FSEntries) (ctx : CodebaseContext)
        (t : TransportError),
        rd ≠ "" → k ≠ "" → m ≠ "" →
        condensedContext rd root 15 = .ok ctx → ctx.files.length ≠ 0 →
        analyzeCodebase rd k m root (.error t) =
          .error (.aiAnalysis ("AI analysis request failed") (some (.transport t)))) ∧
    (∀ (rd k m : String) (root : Option FSEntries) (ctx : CodebaseContext)
        (resp : AnalysisResponse),
        rd ≠ "" → k ≠ "" → m ≠ "" →
        condensedContext rd root 15 = .ok ctx → ctx.files.length ≠ 0 →
        (resp.object = none ∨
          ∃ obj, resp.object = some obj ∧ obj.vulnerabilities = none) →
        analyzeCodebase rd k m root (.ok resp) =
          .error (.aiAnalysis ("Invalid response format from AI analysis") none)) ∧
    (∀ (rd k m : String) (root : Option FSEntries) (ctx : CodebaseContext)
        (resp : AnalysisResponse) (obj : AnalysisObject),
        rd ≠ "" → k ≠ "" → m ≠ "" →
        condensedContext rd root 15 = .ok ctx → ctx.files.length ≠ 0 →
        resp.object = some obj → obj.vulnerabilities = some [] →
        analyzeCodebase rd k m root (.ok resp) = .ok []) := by
  refine ⟨?_, ?_, ?_⟩
  · intro rd k m root ctx t h1 h2 h3 hctx hne
    simp only [analyzeCodebase, isEmpty_false_of_ne h1, isEmpty_false_of_ne h2,
      isEmpty_false_of_ne h3, Bool.false_eq_true, if_false, hctx]
    rw [if_neg hne]
  · intro rd k m root ctx resp h1 h2 h3 hctx hne hor
    simp only [analyzeCodebase, isEmpty_false_of_ne h1, isEmpty_false_of_ne h2,
      isEmpty_false_of_ne h3, Bool.false_eq_true, if_false, hctx]
    rw [if_neg hne]
    rcases hor with hnone | ⟨obj, hobj, hvuln⟩
    · simp only [hnone]
    · simp only [hobj, hvuln]
  · intro rd k m root ctx resp obj h1 h2 h3 hctx hne hobj hvuln
    simp only [analyzeCodebase, isEmpty_false_of_ne h1, isEmpty_false_of_ne h2,
      isEmpty_false_of_ne h3, Bool.false_eq_true, if_false, hctx]
    rw [if_neg hne]
    simp only [hobj, hvuln]

/-- Witness for C4: the three behaviours observed at the concrete sample
directory with concrete responses. -/
theorem analyzeCodebase_response_validation_witness :
    analyzeCodebase ("r") ("k") ("m") (some sampleFS) (.error { message := "boom" }) =
      .error (.aiAnalysis ("AI analysis request failed")
        (some (.transport { message := "boom" }))) ∧
    analyzeCodebase ("r") ("k") ("m") (some sampleFS) (.ok { object := none }) =
      .error (.aiAnalysis ("Invalid response format from AI analysis") none) ∧
    analyzeCodebase ("r") ("k") ("m") (some sampleFS)
        (.ok { object := some { vulnerabilities := none } }) =
      .error (.aiAnalysis ("Invalid response format from AI analysis") none) ∧
    analyzeCodebase ("r") ("k") ("m") (some sampleFS)
        (.ok { object := some { vulnerabilities := some [] } }) = .ok [] := by
  refine ⟨analyzeCodebase_response_validation.1 ("r") ("k") ("m") _ sampleBuiltCtx _
      (by decide) (by decide) (by decide) sample_condensed_eq (by decide),
    analyzeCodebase_response_validation.2.1 ("r") ("k") ("m") _ sampleBuiltCtx _
      (by decide) (by decide) (by decide) sample_condensed_eq (by decide) (Or.inl rfl),
    analyzeCodebase_response_validation.2.1 ("r") ("k") ("m") _ sampleBuiltCtx _
      (by decide) (by decide) (by decide) sample_condensed_eq (by decide)
      (Or.inr ⟨_, rfl, rfl⟩),
    analyzeCodebase_response_validation.2.2 ("r") ("k") ("m") _ sampleBuiltCtx _ _
      (by decide) (by decide) (by decide) sample_condensed_eq (by decide) rfl rfl⟩

/-- C8: every successful insight generation returns exactly one narrative,
and that narrative is non-empty (the falsy check rejects an empty string);
an empty vulnerability list is a valid input that still succeeds whenever
the response carries a narrative and risk assessment, so emptiness alone
never causes a failure. -/
theorem generateInsights_single_nonempty_narrative :
    (∀ (v : List Vulnerability) (k m : String)
        (remote : Except TransportError InsightResponse) (out : List String),
        generateInsights (some v) k m remote = .ok out →
        ∃ a, out = [a] ∧ a ≠ "") ∧
    (∀ (k m : String) (resp : InsightResponse) (obj : InsightObject) (a : String)
        (ra : RiskAssessment),
        k ≠ "" → m ≠ "" →
        resp.object = some obj → obj.analysis = some a → a ≠ "" →
        obj.riskAssessment = some ra →
        generateInsights (some []) k m (.ok resp) = .ok [a]) := by
  constructor
  · intro v k m remote out h
    simp only [generateInsights] at h
    by_cases hk : k.isEmpty = true
    · rw [if_pos hk] at h
      exact absurd h (by simp)
    · rw [if_neg hk] at h
      by_cases hm : m.isEmpty = true
      · rw [if_pos hm] at h
        exact absurd h (by simp)
      · rw [if_neg hm] at h
        cases remote with
        | error t => exact absurd h (by simp)
        | ok result =>
            cases hobj : result.object with
            | none =>
                simp only [hobj] at h
                exact absurd h (by simp)
            | some obj =>
                simp only [hobj] at h
                cases hana : obj.analysis with
                | none =>
                    simp only [hana] at h
                    exact absurd h (by simp)
                | some a =>
                    simp only [hana] at h
                    by_cases hae : a.isEmpty = true
                    · rw [if_pos hae] at h
                      exact absurd h (by simp)
                    · rw [if_neg hae] at h
                      cases hra : obj.riskAssessment with
                      | none =>
                          simp only [hra] at h
                          exact absurd h (by simp)
                      | some ra =>
                          simp only [hra] at h
                          refine ⟨a, (Except.ok.inj h).symm, ?_⟩
                          intro hempty
                          subst hempty
                          exact hae (by decide)
  · intro k m resp obj a ra hk hm hobj hana hane hra
    simp only [generateInsights]
    rw [if_neg (not_isEmpty hk), if_neg (not_isEmpty hm)]
    simp only [hobj, hana]
    rw [if_neg (not_isEmpty hane)]
    simp only [hra]

/-- Witness for C8: insight generation on the empty vulnerability list with a
concrete well-formed response returns exactly the one narrative. -/
theorem generateInsights_witness :
    generateInsights (some []) ("k") ("m") (.ok cleanInsightResponse) =
      .ok ["All clear."] :=
  generateInsights_single_nonempty_narrative.2 ("k") ("m") cleanInsightResponse
    cleanInsightObject ("All clear.") cleanRisk
    (by decide) (by decide) rfl rfl (by decide) rfl

/-- Helper: every file kept by discovery has a supported name. -/
theorem supported_of_mem_scan {es : FSEntries} {sf : ScannedFile}
    (h : sf ∈ scanEntries [] es) : isSupportedFile sf.name = true := by
  rw [scanEntries_eq_filter [] es] at h
  obtain ⟨g, hg, rfl⟩ := List.mem_map.mp h
  have hkeep := (List.mem_filter.mp hg).2
  simp only [keptFile, Bool.and_eq_true] at hkeep
  exact hkeep.2

/-- Helper: a supported name's language is a value of the extension table and
never the generic default. -/
theorem getLanguage_in_table {n : String} (h : isSupportedFile n = true) :
    (∃ ext, (ext, getLanguage n) ∈ SUPPORTED_EXTENSIONS) ∧ getLanguage n ≠ "text" := by
  unfold isSupportedFile at h
  obtain ⟨v, hv⟩ := Option.isSome_iff_exists.mp h
  have hmem := lookup_mem hv
  unfold getLanguage
  rw [hv]
  have hval : ∀ p ∈ SUPPORTED_EXTENSIONS, ¬ p.2 = "text" := by decide
  exact ⟨⟨lowercase (extname n), by simpa using hmem⟩, by simpa using hval _ hmem⟩

/-- C10: every file of a built context, and of any condensation of it,
carries a language tag that is a value of the static extension table; the
generic `text` default is unreachable on this path because discovery admits
only supported names. -/
theorem builtContext_language_from_table :
    ∀ (rootDir : String) (root : Option FSEntries) (ctx : CodebaseContext),
      buildContext rootDir root = .ok ctx →
      ∀ (N : Nat) (f : FileContext),
        (f ∈ ctx.files ∨ f ∈ (getCondensedContext ctx N).files) →
        (∃ ext, (ext, f.language) ∈ SUPPORTED_EXTENSIONS) ∧ f.language ≠ "text" := by
  intro rootDir root ctx hok N f hf
  have hmem : f ∈ ctx.files := by
    rcases hf with hf | hf
    · exact hf
    · have hsub : (getCondensedContext ctx N).files.Sublist
          (List.insertionSort condRel ctx.files) := List.take_sublist _ _
      exact (List.perm_insertionSort condRel ctx.files).mem_iff.mp (hsub.subset hf)
  unfold buildContext at hok
  by_cases he : rootDir.isEmpty
  · rw [if_pos he] at hok
    exact absurd hok (by simp)
  · rw [if_neg he] at hok
    cases root with
    | none => exact absurd hok (by simp)
    | some es =>
        simp only at hok
        by_cases h1 : (scanEntries [] es).length = 0
        · rw [if_pos h1] at hok
          exact absurd hok (by simp)
        · rw [if_neg h1] at hok
          by_cases h2 : (readPass (scanEntries [] es)).length = 0
          · rw [if_pos h2] at hok
            exact absurd hok (by simp)
          · rw [if_neg h2] at hok
            obtain rfl : ctx = _ := (Except.ok.inj hok).symm
            simp only at hmem
            obtain ⟨sf, hsf, _, hlang, _⟩ := mem_readPass hmem
            rw [hlang]
            exact getLanguage_in_table (supported_of_mem_scan hsf)

/-- Witness for C10: the sample build's file has its language in the table
and distinct from the generic default. -/
theorem builtContext_language_witness :
    (∃ ext, (ext, sampleFile.language) ∈ SUPPORTED_EXTENSIONS) ∧
      sampleFile.language ≠ "text" :=
  builtContext_language_from_table ("r") (some sampleFS) sampleBuiltCtx sample_build_eq
    15 sampleFile (Or.inl (by simp [sampleBuiltCtx]))

end Theorems

end VibeCheck
